import Mathlib

/-!
Verification of the dependency-update auto-merge action against its source
(src/run.ts, src/result.ts). The policy engine of run.ts is embedded
shallowly: JSON-like manifest values become the inductive `JsVal`, the
`deep-object-diff` library functions (`addedDiff`, `deletedDiff`,
`updatedDiff`, `detailedDiff`) and the `semver` library functions used by the
code (`gte`, `diff`, and the strict version parser they share) are translated
from the library sources bundled with the repository, and the fallible parts
of the run (JavaScript property access on `null`, `Object.keys(null)`, and
`semver` throwing on versions that pass run.ts's loose regex but fail the
strict grammar) are modelled with `Except`.

Modelling notes, fixed throughout:
* JS objects are association lists in key-insertion order with no duplicate
  keys; `Object.keys` is the list of first components.
* Manifests come from two independent `JSON.parse` calls, so JS reference
  equality (`===`) between a base-side and a head-side value is value
  equality on primitives and `false` on two objects; `strictEq` encodes
  exactly that.
* Arrays do not occur in the manifests considered here and are omitted from
  `JsVal`; `Date` values cannot result from `JSON.parse`, so the dead `isDate`
  branches of deep-object-diff are dropped.
* JS numbers are modelled as integers: the engine only ever inspects their
  `typeof`.
* Strings are assumed not to contain a newline character, so the `$` of the
  JS regexes means end of string.
-/

/-- A JSON-ish JavaScript value as it can occur in a parsed manifest or in a
deep-object-diff result (`jsUndefined` models JS undefined, produced by `deletedDiff`). -/
inductive JsVal where
  | str (s : String)
  | num (n : Int)
  | bool (b : Bool)
  | null
  | jsUndefined
  | obj (fields : List (String × JsVal))
deriving Repr

/-- JavaScript strict equality between a value reachable from one JSON.parse
result and a value reachable from another: value equality on primitives,
false when both sides are objects (two distinct heap references). -/
def strictEq : JsVal → JsVal → Bool
  | .str a, .str b => a = b
  | .num a, .num b => a = b
  | .bool a, .bool b => a = b
  | .null, .null => true
  | .jsUndefined, .jsUndefined => true
  | _, _ => false

/-- The result of the JavaScript `typeof` operator on a `JsVal`; note that
`typeof null` is "object". -/
def typeofStr : JsVal → String
  | .str _ => "string"
  | .num _ => "number"
  | .bool _ => "boolean"
  | .null => "object"
  | .jsUndefined => "undefined"
  | .obj _ => "object"

/-- deep-object-diff's `isObject` (`o != null && typeof o === 'object'`):
unlike `typeof`, this excludes `null`. -/
def isObjectB : JsVal → Bool
  | .obj _ => true
  | _ => false

/-- deep-object-diff's `isEmpty` applied to a diff result: true exactly for
the object with no keys. -/
def isEmptyObj : JsVal → Bool
  | .obj [] => true
  | _ => false

/-- First binding of a key in an association list (JS property lookup on an
object with no duplicate keys). -/
def lookupAssoc {α : Type} (l : List (String × α)) (k : String) : Option α :=
  match l with
  | [] => none
  | (k2, v) :: rest => if k2 = k then some v else lookupAssoc rest k

/-- Numeric value of a digit run (the JS `+digits` conversion). -/
def numFromDigits (ds : List Char) : Nat :=
  ds.foldl (fun a c => a * 10 + (c.toNat - 48)) 0

/-- The semver NUMERICIDENTIFIER grammar `0|[1-9]\d*`: a non-empty digit run
without a leading zero (unless it is exactly "0"). -/
def validNumId (ds : List Char) : Bool :=
  match ds with
  | [] => false
  | ['0'] => true
  | c :: _ => c ≠ '0'

/-- JavaScript property read `v[k]` for string values: "length", canonical
numeric indices below the length (yielding a one-character string), anything
else `undefined`. A canonical index is a digit string with no leading zero. -/
def stringProp (s : String) (k : String) : JsVal :=
  if k = "length" then .num s.data.length
  else if k.data.all Char.isDigit && validNumId k.data then
    if numFromDigits k.data < s.data.length then .str (String.mk [s.data.getD (numFromDigits k.data) ' '])
    else .jsUndefined
  else .jsUndefined

/-- JavaScript property read `v[k]`: throws a TypeError on `null` and
`undefined`, returns `undefined` for absent keys, and reads string
index/length properties. (Properties inherited from prototypes of numbers and
booleans are functions, which the engine treats the same as `undefined`:
both fail its `typeof x === 'string'` tests.) -/
def jsGetE : JsVal → String → Except String JsVal
  | .null, _ => .error "TypeError: Cannot read properties of null"
  | .jsUndefined, _ => .error "TypeError: Cannot read properties of undefined"
  | .obj fields, k => .ok ((lookupAssoc fields k).getD .jsUndefined)
  | .str s, k => .ok (stringProp s k)
  | .num _, _ => .ok .jsUndefined
  | .bool _, _ => .ok .jsUndefined

/-- JavaScript `Object.keys`: throws a TypeError on `null`/`undefined`,
enumerates index strings for a string, nothing for other primitives. -/
def objectKeys : JsVal → Except String (List String)
  | .null => .error "TypeError: Cannot convert undefined or null to object"
  | .jsUndefined => .error "TypeError: Cannot convert undefined or null to object"
  | .obj fields => .ok (fields.map (fun kv => kv.1))
  | .str s => .ok ((List.range s.length).map Nat.repr)
  | .num _ => .ok []
  | .bool _ => .ok []

/-! deep-object-diff, translated from the library source bundled with the
repository. Each of the three diffs is given as a pair of mutually recursive
functions: the value-level function mirroring the JS function, and the
field-level function mirroring its `Object.keys(...).reduce(...)` body. -/

mutual

/-- deep-object-diff `addedDiff(lhs, rhs)`: always returns an object, here
its field list. -/
def addedDiffF (lhs rhs : JsVal) : List (String × JsVal) :=
  if strictEq lhs rhs then []
  else
    match lhs, rhs with
    | .obj l, .obj r => addedFields l r
    | _, _ => []

/-- Field part of `addedDiff`: walks the keys of `r` in order; keys absent
from `l` are reported with their `r` value, keys present in both recurse and
are kept only when the recursive result is non-empty. -/
def addedFields (l : List (String × JsVal)) : List (String × JsVal) → List (String × JsVal)
  | [] => []
  | (k, rv) :: rest =>
    match lookupAssoc l k with
    | some lv =>
      let d := addedDiffF lv rv
      if d.isEmpty then addedFields l rest else (k, .obj d) :: addedFields l rest
    | none => (k, rv) :: addedFields l rest

end

mutual

/-- deep-object-diff `deletedDiff(lhs, rhs)`: always returns an object, here
its field list. -/
def deletedDiffF (lhs rhs : JsVal) : List (String × JsVal) :=
  if strictEq lhs rhs then []
  else
    match lhs, rhs with
    | .obj l, .obj r => deletedFields r l
    | _, _ => []

/-- Field part of `deletedDiff`: walks the keys of `l` in order; keys absent
from `r` are reported with value `undefined`, keys present in both recurse
and are kept only when the recursive result is non-empty. -/
def deletedFields (r : List (String × JsVal)) : List (String × JsVal) → List (String × JsVal)
  | [] => []
  | (k, lv) :: rest =>
    match lookupAssoc r k with
    | some rv =>
      let d := deletedDiffF lv rv
      if d.isEmpty then deletedFields r rest else (k, .obj d) :: deletedFields r rest
    | none => (k, .jsUndefined) :: deletedFields r rest

end

mutual

/-- deep-object-diff `updatedDiff(lhs, rhs)`: returns `rhs` itself when either
side is a non-object (including `null`), otherwise an object of the changed
keys. -/
def updatedDiffV (lhs rhs : JsVal) : JsVal :=
  if strictEq lhs rhs then .obj []
  else
    match lhs, rhs with
    | .obj l, .obj r => .obj (updatedFields l r)
    | _, _ => rhs

/-- Field part of `updatedDiff`: walks the keys of `r` in order; keys present
in both sides recurse, and the recursive difference is kept unless it is an
empty object; keys absent from `l` are dropped. -/
def updatedFields (l : List (String × JsVal)) : List (String × JsVal) → List (String × JsVal)
  | [] => []
  | (k, rv) :: rest =>
    match lookupAssoc l k with
    | some lv =>
      let d := updatedDiffV lv rv
      if isObjectB d && isEmptyObj d then updatedFields l rest
      else (k, d) :: updatedFields l rest
    | none => updatedFields l rest

end

/-- The `Result` enum of src/result.ts, constructor for constructor. The
members `PRHeadChanged`, `TimedOut` and `MergeTriggerFailed` named by the
specification are NOT members of this enum: run.ts mentions
`Result.PRHeadChanged` (a member absent from result.ts, hence `undefined` at
run time), and both the polling-loop timeout and an auto-merge mutation
failure are `throw new Error(...)`, not `Result` values. -/
inductive Result where
  | UnknownEvent
  | UnknownMergeMethod
  | ActorNotAllowed
  | NoChanges
  | FileNotAllowed
  | UnexpectedChanges
  | UnexpectedPropertyChange
  | VersionChangeNotAllowed
  | PRNotOpen
  | Success
deriving DecidableEq, Repr

/-- The numeric value TypeScript assigns each `Result` member (auto-increment
from 0 in declaration order). -/
def resultCode : Result → Nat
  | .UnknownEvent => 0
  | .UnknownMergeMethod => 1
  | .ActorNotAllowed => 2
  | .NoChanges => 3
  | .FileNotAllowed => 4
  | .UnexpectedChanges => 5
  | .UnexpectedPropertyChange => 6
  | .VersionChangeNotAllowed => 7
  | .PRNotOpen => 8
  | .Success => 9

/-- The declared name of each `Result` member of src/result.ts. -/
def resultName : Result → String
  | .UnknownEvent => "UnknownEvent"
  | .UnknownMergeMethod => "UnknownMergeMethod"
  | .ActorNotAllowed => "ActorNotAllowed"
  | .NoChanges => "NoChanges"
  | .FileNotAllowed => "FileNotAllowed"
  | .UnexpectedChanges => "UnexpectedChanges"
  | .UnexpectedPropertyChange => "UnexpectedPropertyChange"
  | .VersionChangeNotAllowed => "VersionChangeNotAllowed"
  | .PRNotOpen => "PRNotOpen"
  | .Success => "Success"

/-- Every member of the `Result` enum, in declaration order. -/
def allResults : List Result :=
  [.UnknownEvent, .UnknownMergeMethod, .ActorNotAllowed, .NoChanges, .FileNotAllowed,
   .UnexpectedChanges, .UnexpectedPropertyChange, .VersionChangeNotAllowed, .PRNotOpen, .Success]

/-! Embedding of the parts of the `semver` library the action uses, from the
library source bundled with the repository: the strict version grammar (the
FULL regex), `compare`/`gte`, and the (pre-7.5) `diff`. -/

/-- One dot-separated prerelease identifier as stored on a parsed version:
numeric identifiers are numbers, the rest stay strings. -/
inductive PreId where
  | num (n : Nat)
  | str (s : String)
deriving DecidableEq, Repr

/-- A parsed semver version (the build part is validated but discarded: the
comparisons the action uses never read it). -/
structure SemVerV where
  major : Nat
  minor : Nat
  patch : Nat
  prerelease : List PreId
deriving DecidableEq, Repr

/-- JavaScript Number.MAX_SAFE_INTEGER. -/
def maxSafeInteger : Nat := 9007199254740991

/-- Characters allowed in prerelease and build identifiers: `[0-9A-Za-z-]`. -/
def isIdChar (c : Char) : Bool :=
  c.isDigit || c.isAlpha || c = '-'

/-- Split a character list at every occurrence of a separator (like JS
`String.prototype.split` with a single-character separator). -/
def splitOnChar (sep : Char) (cs : List Char) : List (List Char) :=
  cs.foldr
    (fun c acc =>
      match acc with
      | [] => [[c]]
      | g :: gs => if c = sep then [] :: g :: gs else (c :: g) :: gs)
    [[]]

/-- One prerelease identifier per the PRERELEASEIDENTIFIER grammar
(`0|[1-9]\d*` or `\d*[a-zA-Z-][a-zA-Z0-9-]*`), converted the way the SemVer
constructor stores it: an all-digit identifier whose value is below
MAX_SAFE_INTEGER becomes a number, everything else stays a string. -/
def parsePreId (cs : List Char) : Option PreId :=
  if cs.isEmpty then none
  else if !cs.all isIdChar then none
  else if cs.all Char.isDigit then
    if validNumId cs then
      if numFromDigits cs < maxSafeInteger then some (.num (numFromDigits cs))
      else some (.str (String.mk cs))
    else none
  else some (.str (String.mk cs))

/-- The prerelease part (after the leading `-`): one or more dot-separated
prerelease identifiers. -/
def parsePreList (cs : List Char) : Option (List PreId) :=
  let groups := splitOnChar '.' cs
  groups.foldr
    (fun g acc =>
      match acc with
      | none => none
      | some ids =>
        match parsePreId g with
        | none => none
        | some i => some (i :: ids))
    (some [])

/-- The build part (after the leading `+`): one or more dot-separated
BUILDIDENTIFIER groups `[0-9A-Za-z-]+`. -/
def validBuild (cs : List Char) : Bool :=
  (splitOnChar '.' cs).all (fun g => !g.isEmpty && g.all isIdChar)

/-- Split the tail after the main version at the first `+` (prerelease
identifiers cannot contain `+`, so everything from the first `+` on is the
build part). -/
def splitAtPlus : List Char → List Char × Option (List Char)
  | [] => ([], none)
  | c :: rest =>
    if c = '+' then ([], some rest)
    else
      match splitAtPlus rest with
      | (pre, build) => (c :: pre, build)

/-- Parse the `-prerelease` / `+build` tail of a version. Returns the stored
prerelease list on success. -/
def parseTail (cs : List Char) : Option (List PreId) :=
  match cs with
  | [] => some []
  | '-' :: rest =>
    match splitAtPlus rest with
    | (preCs, none) => if preCs.isEmpty then none else parsePreList preCs
    | (preCs, some buildCs) =>
      if preCs.isEmpty then none
      else if validBuild buildCs then parsePreList preCs else none
  | '+' :: rest => if validBuild rest then some [] else none
  | _ => none

/-- Take the longest digit run off the front of a character list. -/
def spanDigits (cs : List Char) : List Char × List Char :=
  (cs.takeWhile Char.isDigit, cs.dropWhile Char.isDigit)

/-- Parse `major.minor.patch` then hand the rest to `parseTail`; each
component must match NUMERICIDENTIFIER and stay within MAX_SAFE_INTEGER (the
SemVer constructor throws beyond it). -/
def parseMainTail (cs : List Char) : Option SemVerV :=
  match spanDigits cs with
  | (d1, r1) =>
    if !validNumId d1 || numFromDigits d1 > maxSafeInteger then none
    else
      match r1 with
      | '.' :: r2 =>
        match spanDigits r2 with
        | (d2, r3) =>
          if !validNumId d2 || numFromDigits d2 > maxSafeInteger then none
          else
            match r3 with
            | '.' :: r4 =>
              match spanDigits r4 with
              | (d3, r5) =>
                if !validNumId d3 || numFromDigits d3 > maxSafeInteger then none
                else
                  match parseTail r5 with
                  | none => none
                  | some pre =>
                    some ⟨numFromDigits d1, numFromDigits d2, numFromDigits d3, pre⟩
            | _ => none
      | _ => none

/-- Whitespace trim on a character list (JS `String.prototype.trim`). -/
def trimChars (cs : List Char) : List Char :=
  ((cs.dropWhile Char.isWhitespace).reverse.dropWhile Char.isWhitespace).reverse

/-- The semver strict parser (`new SemVer(s)` with default options): length
cap, trim, optional leading `v`, then the FULL grammar. `none` models the
constructor throwing `Invalid Version`. -/
def semverParse (s : String) : Option SemVerV :=
  if s.data.length > 256 then none
  else
    match trimChars s.data with
    | 'v' :: rest => parseMainTail rest
    | cs => parseMainTail cs

/-- Sign comparison of two naturals as an integer, the shape the semver
comparators produce. -/
def cmpNat (a b : Nat) : Int :=
  if a < b then -1 else if a = b then 0 else 1

/-- Numeric view of a stored identifier the way semver's
`compareIdentifiers` probes it with `/^[0-9]+$/`: stored numbers, and stored
strings that are all digits (these arise only for values at or above
MAX_SAFE_INTEGER; their JS float comparison is modelled as exact). -/
def preIdNumVal : PreId → Option Nat
  | .num n => some n
  | .str s => if !s.data.isEmpty && s.data.all Char.isDigit then some (numFromDigits s.data) else none

/-- semver `compareIdentifiers`: numeric identifiers compare numerically and
sort before non-numeric ones; non-numeric identifiers compare as JS strings
(code-unit order, which agrees with Lean string order on ASCII). -/
def compareIdentifiers (a b : PreId) : Int :=
  match preIdNumVal a, preIdNumVal b with
  | some x, some y => cmpNat x y
  | some _, none => -1
  | none, some _ => 1
  | none, none =>
    match a, b with
    | .str x, .str y => if x = y then 0 else if x < y then -1 else 1
    | _, _ => 0

/-- The element-wise loop of semver's `comparePre`, entered once both lists
are known non-empty: shared prefix, then the longer list is greater. -/
def comparePreLists : List PreId → List PreId → Int
  | [], [] => 0
  | _ :: _, [] => 1
  | [], _ :: _ => -1
  | a :: as, b :: bs => if a = b then comparePreLists as bs else compareIdentifiers a b

/-- semver `comparePre`: a version with a prerelease sorts below one without;
two prereleases compare element-wise. -/
def comparePre (p1 p2 : List PreId) : Int :=
  match p1, p2 with
  | _ :: _, [] => -1
  | [], _ :: _ => 1
  | [], [] => 0
  | _, _ => comparePreLists p1 p2

/-- semver `compareMain`: major, then minor, then patch. -/
def compareMain (a b : SemVerV) : Int :=
  if a.major ≠ b.major then cmpNat a.major b.major
  else if a.minor ≠ b.minor then cmpNat a.minor b.minor
  else cmpNat a.patch b.patch

/-- semver `compare`: `compareMain(other) || comparePre(other)`. -/
def compareSemVer (a b : SemVerV) : Int :=
  if compareMain a b ≠ 0 then compareMain a b else comparePre a.prerelease b.prerelease

/-- semver `gte(a, b)`: parses both (throwing `Invalid Version` on failure,
modelled as `Except.error`) and tests `compare(a, b) >= 0`. -/
def semverGteE (a b : String) : Except String Bool :=
  match semverParse a with
  | none => .error ("Invalid Version: " ++ a)
  | some v1 =>
    match semverParse b with
    | none => .error ("Invalid Version: " ++ b)
    | some v2 => .ok (0 ≤ compareSemVer v1 v2)

/-- Core of the bundled (pre-7.5) semver `diff` on two parsed versions:
`null` (here `none`) for equal versions; otherwise the highest differing of
major/minor/patch, prefixed with "pre" when either side has a prerelease;
"prerelease" when only the prerelease differs. -/
def semverDiffParsed (v1 v2 : SemVerV) : Option String :=
  if compareSemVer v1 v2 = 0 then none
  else
    let hasPre := !v1.prerelease.isEmpty || !v2.prerelease.isEmpty
    let pfx := if hasPre then "pre" else ""
    if v1.major ≠ v2.major then some (pfx ++ "major")
    else if v1.minor ≠ v2.minor then some (pfx ++ "minor")
    else if v1.patch ≠ v2.patch then some (pfx ++ "patch")
    else if hasPre then some "prerelease" else some ""

/-- semver `diff(a, b)` as the action reaches it: the `eq` call parses both
versions first (throwing on failure), then `semverDiffParsed` decides the
category. -/
def semverDiffE (a b : String) : Except String (Option String) :=
  match semverParse a with
  | none => .error ("Invalid Version: " ++ a)
  | some v1 =>
    match semverParse b with
    | none => .error ("Invalid Version: " ++ b)
    | some v2 => .ok (semverDiffParsed v1 v2)

/-! The policy engine of src/run.ts. -/

/-- The regex of run.ts line 10, `^([~^]?)[0-9]+\.[0-9]+\.[0-9]+(-.+)?$`,
as `exec` uses it there: `none` when the string does not match, otherwise the
first capture group (the empty, `~` or `^` range marker). -/
def semverCoreMatch (cs : List Char) : Bool :=
  match spanDigits cs with
  | ([], _) => false
  | (_ :: _, r1) =>
    match r1 with
    | '.' :: r2 =>
      match spanDigits r2 with
      | ([], _) => false
      | (_ :: _, r3) =>
        match r3 with
        | '.' :: r4 =>
          match spanDigits r4 with
          | ([], _) => false
          | (_ :: _, r5) =>
            match r5 with
            | [] => true
            | '-' :: tail => !tail.isEmpty
            | _ => false
        | _ => false
    | _ => false

/-- run.ts `semverRegex.exec(version)`: the matched range marker, or `none`
when the whole string does not match. -/
def semverRegexExec (s : String) : Option String :=
  match s.data with
  | [] => none
  | c :: rest =>
    if c = '~' ∨ c = '^' then
      if semverCoreMatch rest then some (String.mk [c]) else none
    else if semverCoreMatch (c :: rest) then some "" else none

/-- The `allowed` array validVersionChange builds from the configured bump
types: of "major", "minor", "patch", in that order, those present in
`allowedBumpTypes`. -/
def bumpAllowList (allowedBumpTypes : List String) : List String :=
  (if allowedBumpTypes.contains "major" then ["major"] else []) ++
    (if allowedBumpTypes.contains "minor" then ["minor"] else []) ++
      (if allowedBumpTypes.contains "patch" then ["patch"] else [])

/-- run.ts `validVersionChange(oldVersion, newVersion, allowedBumpTypes)`.
`Except.error` models the semver library throwing (reachable when a version
passes the loose run.ts regex but fails the strict semver grammar, e.g. a
leading zero or a malformed prerelease). -/
def validVersionChange (oldVersion newVersion : String) (allowedBumpTypes : List String) :
    Except String Bool :=
  match semverRegexExec oldVersion with
  | none => .ok false
  | some oldPfx =>
    match semverRegexExec newVersion with
    | none => .ok false
    | some newPfx =>
      if oldPfx ≠ newPfx then .ok false
      else
        match semverGteE (oldVersion.drop oldPfx.length) (newVersion.drop newPfx.length) with
        | .error e => .error e
        | .ok true => .ok false
        | .ok false =>
          match semverDiffE (oldVersion.drop oldPfx.length) (newVersion.drop newPfx.length) with
          | .error e => .error e
          | .ok d =>
            .ok (match d with
              | some s => (bumpAllowList allowedBumpTypes).contains s
              | none => false)

/-- A manifest: the JSON object a `readPackageJson` call produces. -/
abbrev Manifest := List (String × JsVal)

/-- One entry of the commit's changed-file list as run.ts reads it
(`{ filename, status }`). -/
structure ChangedFile where
  filename : String
  status : String
deriving DecidableEq, Repr

/-- The fixed allow-list of file names of run.ts line 225. -/
def allowedFileNames : List String := ["package.json", "package-lock.json", "yarn.lock"]

/-- run.ts lines 223-227: every changed file must be one of the allowed names
and have status exactly "modified". -/
def onlyPackageJsonChanged (files : List ChangedFile) : Bool :=
  files.all (fun f => allowedFileNames.contains f.filename && f.status == "modified")

/-- Outcome of the policy-engine part of `run` (lines 237-285): a denial
`Result` returned early, fall-through to the `enableAutoMerge` call, or an
uncaught TypeError. -/
inductive EvalOutcome where
  | denied (r : Result)
  | allowed
  | crashed (msg : String)
deriving DecidableEq, Repr

/-- run.ts lines 247-252: every updated key must be one of the two dependency
map keys and its updated value must satisfy `typeof x === 'object'` (which
`null` does). -/
def allowedPropsB (updated : List (String × JsVal)) : Bool :=
  updated.all (fun kv =>
    (kv.1 == "dependencies" || kv.1 == "devDependencies") && typeofStr kv.2 == "object")

/-- Body of the inner `every` of run.ts lines 261-274, for one dependency
name: reject non-string diff entries, then deny-listed names, then read the
old and new specifiers off the manifests (JS property reads that throw on
`null`), reject non-strings, and finally classify the version change. -/
def checkDependency (base head : Manifest) (packageBlockList : List String)
    (allowedBumpTypes : List String) (p : String) (v : JsVal) (dep : String) :
    Except String Bool :=
  match jsGetE v dep with
  | .error e => .error e
  | .ok entry =>
    if typeofStr entry ≠ "string" then .ok false
    else if packageBlockList.contains dep then .ok false
    else
      match jsGetE ((lookupAssoc base p).getD .jsUndefined) dep with
      | .error e => .error e
      | .ok oldVersion =>
        match jsGetE ((lookupAssoc head p).getD .jsUndefined) dep with
        | .error e => .error e
        | .ok newVersion =>
          if typeofStr oldVersion ≠ "string" ∨ typeofStr newVersion ≠ "string" then .ok false
          else
            match oldVersion, newVersion with
            | .str o, .str n => validVersionChange o n allowedBumpTypes
            | _, _ => .ok false

/-- The short-circuiting inner `every` over the dependency names of one
updated dependency map. -/
def checkDeps (base head : Manifest) (packageBlockList : List String)
    (allowedBumpTypes : List String) (p : String) (v : JsVal) :
    List String → Except String Bool
  | [] => .ok true
  | dep :: rest =>
    match checkDependency base head packageBlockList allowedBumpTypes p v dep with
    | .error e => .error e
    | .ok false => .ok false
    | .ok true => checkDeps base head packageBlockList allowedBumpTypes p v rest

/-- One updated key of the diff (run.ts lines 258-261): the allowed bump
types default to the empty list when the key is absent from the
configuration, and `Object.keys` of the updated value throws on `null`. -/
def checkProp (base head : Manifest) (allowedUpdateTypes : List (String × List String))
    (packageBlockList : List String) (p : String) (v : JsVal) : Except String Bool :=
  match objectKeys v with
  | .error e => .error e
  | .ok deps =>
    checkDeps base head packageBlockList ((lookupAssoc allowedUpdateTypes p).getD []) p v deps

/-- The short-circuiting outer `every` of run.ts line 258 over the updated
keys of the diff. -/
def allowedChangeE (base head : Manifest) (allowedUpdateTypes : List (String × List String))
    (packageBlockList : List String) : List (String × JsVal) → Except String Bool
  | [] => .ok true
  | (p, v) :: rest =>
    match checkProp base head allowedUpdateTypes packageBlockList p v with
    | .error e => .error e
    | .ok false => .ok false
    | .ok true => allowedChangeE base head allowedUpdateTypes packageBlockList rest

/-- run.ts lines 237-285 (after the manifests are fetched): compute the
detailed diff, reject any added or deleted key, reject unexpected updated
properties, then require every dependency change to be allowed; falling
through means the auto-merge call is reached. -/
def evalPolicy (base head : Manifest) (allowedUpdateTypes : List (String × List String))
    (packageBlockList : List String) : EvalOutcome :=
  let updated := updatedFields base head
  if !(addedFields base head).isEmpty || !(deletedFields head base).isEmpty then
    .denied .UnexpectedChanges
  else if !allowedPropsB updated then .denied .UnexpectedPropertyChange
  else
    match allowedChangeE base head allowedUpdateTypes packageBlockList updated with
    | .error e => .crashed e
    | .ok false => .denied .VersionChangeNotAllowed
    | .ok true => .allowed

/-- The run from the commit stage on (run.ts lines 221-285): the changed-file
check runs first and returns `FileNotAllowed` without consulting either
manifest; only then is the policy evaluated. -/
def runModel (files : List ChangedFile) (base head : Manifest)
    (allowedUpdateTypes : List (String × List String)) (packageBlockList : List String) :
    EvalOutcome :=
  if !onlyPackageJsonChanged files then .denied .FileNotAllowed
  else evalPolicy base head allowedUpdateTypes packageBlockList

/-! The bounded polling merge loop `mergeWhenPossible` (run.ts lines 99-142)
and the auto-merge mutation `enableAutoMerge` (lines 144-166). The loop is
dead code in this revision of run.ts (`run` invokes `enableAutoMerge`), but
it is fully present in the source and is modelled as a function over the
finite trace of pull-request states the loop observes. -/

/-- run.ts line 11: `[1, 1, 1, 2, 3, 4, 5, 10, 20, 40, 60].map((a) => a * 1000)`. -/
def retryDelays : List Nat := [1, 1, 1, 2, 3, 4, 5, 10, 20, 40, 60].map (fun a => a * 1000)

/-- run.ts line 12: the six-hour polling ceiling in milliseconds. -/
def timeoutMs : Nat := 6 * 60 * 60 * 1000

/-- run.ts line 136: `retryDelays[Math.min(retryDelays.length - 1, i)]`, the
delay slept at the end of loop iteration `i`. -/
def delayForAttempt (i : Nat) : Nat :=
  retryDelays.getD (min (retryDelays.length - 1) i) 0

/-- What the merge API call of one loop iteration does: succeeds, fails with
HTTP 409 (the head moved), or fails some other way. -/
inductive MergeApiRes where
  | merged
  | conflict409
  | otherError
deriving DecidableEq, Repr

/-- What the loop observes in one iteration: the fetched PR state string, its
`mergeable` flag (GitHub's `null` is falsy, hence `false` here), the merge
call's behaviour if attempted, and the `Date.now()` value at the iteration's
timeout check. -/
structure Tick where
  state : String
  mergeable : Bool
  mergeRes : MergeApiRes
  now : Nat
deriving DecidableEq, Repr

/-- How `mergeWhenPossible` can leave its loop. `prHeadChanged` is the
`return Result.PRHeadChanged` of run.ts line 124 — a member that does not
exist in the `Result` enum of src/result.ts — and `timedOutThrown` is the
`throw new Error('Timed out')` of line 141. -/
inductive MergeLoopOutcome where
  | prNotOpen
  | merged
  | prHeadChanged
  | timedOutThrown
deriving DecidableEq, Repr

/-- How one iteration of the loop resolves before its timeout check. -/
inductive TickStep where
  | stop (o : MergeLoopOutcome)
  | again
deriving DecidableEq, Repr

/-- One iteration of run.ts lines 103-130: a non-open PR stops the loop with
`PRNotOpen`; a mergeable PR attempts the merge, where success stops with
`Success`, a 409 stops with the missing `PRHeadChanged`, and any other merge
failure is logged and retried; a non-mergeable PR is retried. -/
def tickStep (t : Tick) : TickStep :=
  if t.state ≠ "open" then .stop .prNotOpen
  else if t.mergeable then
    match t.mergeRes with
    | .merged => .stop .merged
    | .conflict409 => .stop .prHeadChanged
    | .otherError => .again
  else .again

/-- The loop of `mergeWhenPossible` over a finite observation trace,
with `startTime` the `Date.now()` captured at the top of `run`: each
iteration either stops, or reaches the timeout check of line 132
(`Date.now() - startTime >= timeout` breaks the loop into the
`throw new Error('Timed out')`), or sleeps and continues. `none` means the
trace ran out with the loop still polling. -/
def mergeLoop (startTime : Nat) : List Tick → Option MergeLoopOutcome
  | [] => none
  | t :: rest =>
    match tickStep t with
    | .stop o => some o
    | .again => if t.now - startTime ≥ timeoutMs then some .timedOutThrown else mergeLoop startTime rest

/-- A run-level outcome: a `Result` value returned to the caller, a thrown
error, or a `return` of a named enum member that the `Result` enum does not
declare (which TypeScript would reject and JavaScript evaluates to
`undefined`). -/
inductive RunOutcome where
  | returned (r : Result)
  | threw (msg : String)
  | returnedUndefinedMember (name : String)
deriving DecidableEq, Repr

/-- How each way out of the polling loop surfaces to the caller of
`mergeWhenPossible`. -/
def runOutcomeOfLoop : MergeLoopOutcome → RunOutcome
  | .prNotOpen => .returned .PRNotOpen
  | .merged => .returned .Success
  | .prHeadChanged => .returnedUndefinedMember "PRHeadChanged"
  | .timedOutThrown => .threw "Timed out"

/-- run.ts lines 144-166, `enableAutoMerge`: the GraphQL mutation's
`enabledAt` timestamp decides between returning `Success` and throwing. -/
def enableAutoMergeModel (enabledAt : Option String) : RunOutcome :=
  match enabledAt with
  | some _ => .returned .Success
  | none => .threw "Failed to enable auto-merge"

/-- Specification-side definition, following the claim's words: the BumpClass
of a transition between two parsed versions is "the highest-order numeric
component that differs" (none when the numeric components agree). Kept
separate from the source-derived `semverDiffParsed` so the two can be
compared. -/
def specBumpClass (v1 v2 : SemVerV) : Option String :=
  if v1.major ≠ v2.major then some "major"
  else if v1.minor ≠ v2.minor then some "minor"
  else if v1.patch ≠ v2.patch then some "patch"
  else none

/-- The concrete base manifest of the null-update scenario
(`{dependencies: {a: "1.0.0"}}`). -/
def nullScenarioBase : Manifest := [("dependencies", .obj [("a", .str "1.0.0")])]

/-- The concrete head manifest of the null-update scenario
(`{dependencies: null}`). -/
def nullScenarioHead : Manifest := [("dependencies", .null)]

/-! Theorems. -/

/-- The three bump names the allow list can contain. -/
theorem bumpAllowList_mem (ts : List String) (s : String)
    (h : (bumpAllowList ts).contains s = true) :
    s = "major" ∨ s = "minor" ∨ s = "patch" := by
  by_cases h1 : "major" ∈ ts <;> by_cases h2 : "minor" ∈ ts <;>
    by_cases h3 : "patch" ∈ ts <;>
    simp [bumpAllowList, h1, h2, h3] at h <;> tauto

/-- Membership of each of the three bump names in the built allow list
matches the configured types. -/
theorem bumpAllowList_same (ts : List String) (s : String)
    (hs : s = "major" ∨ s = "minor" ∨ s = "patch") :
    (bumpAllowList ts).contains s = ts.contains s := by
  by_cases h1 : "major" ∈ ts <;> by_cases h2 : "minor" ∈ ts <;>
    by_cases h3 : "patch" ∈ ts <;>
    rcases hs with rfl | rfl | rfl <;>
    simp [bumpAllowList, h1, h2, h3]

/-- Unfolding of a successful `gte`: both versions parsed and the comparison
decided the result. -/
theorem semverGteE_ok (a b : String) (c : Bool) (h : semverGteE a b = .ok c) :
    ∃ v1 v2, semverParse a = some v1 ∧ semverParse b = some v2 ∧
      c = decide (0 ≤ compareSemVer v1 v2) := by
  unfold semverGteE at h
  cases hp1 : semverParse a with
  | none => rw [hp1] at h; exact absurd h (by simp)
  | some v1 =>
    cases hp2 : semverParse b with
    | none => rw [hp1, hp2] at h; exact absurd h (by simp)
    | some v2 =>
      rw [hp1, hp2] at h
      exact ⟨v1, v2, rfl, rfl, by injection h with h2; exact h2.symm⟩

/-- Rewriting form of `semverGteE` on two parsed versions. -/
theorem semverGteE_eq (a b : String) (v1 v2 : SemVerV)
    (h1 : semverParse a = some v1) (h2 : semverParse b = some v2) :
    semverGteE a b = .ok (decide (0 ≤ compareSemVer v1 v2)) := by
  unfold semverGteE; rw [h1, h2]

/-- Rewriting form of `semverDiffE` on two parsed versions. -/
theorem semverDiffE_eq (a b : String) (v1 v2 : SemVerV)
    (h1 : semverParse a = some v1) (h2 : semverParse b = some v2) :
    semverDiffE a b = .ok (semverDiffParsed v1 v2) := by
  unfold semverDiffE; rw [h1, h2]

/-- On a strictly changed pair, a plain major/minor/patch answer from the
bundled semver `diff` forces both prereleases empty and agrees with the
specification's highest-differing-component reading. -/
theorem semverDiffParsed_main_of (v1 v2 : SemVerV) (s : String)
    (hc : compareSemVer v1 v2 ≠ 0)
    (h : semverDiffParsed v1 v2 = some s)
    (hs : s = "major" ∨ s = "minor" ∨ s = "patch") :
    v1.prerelease = [] ∧ v2.prerelease = [] ∧ specBumpClass v1 v2 = some s := by
  unfold semverDiffParsed at h
  rw [if_neg hc] at h
  cases hpre : (!v1.prerelease.isEmpty || !v2.prerelease.isEmpty) with
  | true =>
    rw [hpre] at h
    simp only [if_true] at h
    by_cases hmaj : v1.major ≠ v2.major
    · rw [if_pos hmaj] at h
      injection h with h
      rcases hs with rfl | rfl | rfl <;> simp at h
    · rw [if_neg hmaj] at h
      by_cases hmin : v1.minor ≠ v2.minor
      · rw [if_pos hmin] at h
        injection h with h
        rcases hs with rfl | rfl | rfl <;> simp at h
      · rw [if_neg hmin] at h
        by_cases hpat : v1.patch ≠ v2.patch
        · rw [if_pos hpat] at h
          injection h with h
          rcases hs with rfl | rfl | rfl <;> simp at h
        · rw [if_neg hpat] at h
          injection h with h
          rcases hs with rfl | rfl | rfl <;> simp at h
  | false =>
    rw [hpre] at h
    simp only [if_false] at h
    have hp1 : v1.prerelease = [] := by
      rcases Bool.or_eq_false_iff.mp hpre with ⟨ha, _⟩
      simpa [List.isEmpty_iff] using ha
    have hp2 : v2.prerelease = [] := by
      rcases Bool.or_eq_false_iff.mp hpre with ⟨_, hb⟩
      simpa [List.isEmpty_iff] using hb
    refine ⟨hp1, hp2, ?_⟩
    unfold specBumpClass
    by_cases hmaj : v1.major ≠ v2.major
    · rw [if_pos hmaj] at h ⊢; exact h
    · rw [if_neg hmaj] at h ⊢
      by_cases hmin : v1.minor ≠ v2.minor
      · rw [if_pos hmin] at h ⊢; exact h
      · rw [if_neg hmin] at h ⊢
        by_cases hpat : v1.patch ≠ v2.patch
        · rw [if_pos hpat] at h ⊢; exact h
        · exfalso
          rw [if_neg hpat, if_neg (by simp)] at h
          injection h with h
          subst h
          rcases hs with h | h | h <;> simp at h

/-- Converse direction: with both prereleases empty and a strict change, the
bundled semver `diff` computes exactly the specification's
highest-differing-component. -/
theorem semverDiffParsed_of_spec (v1 v2 : SemVerV) (k : String)
    (hc : compareSemVer v1 v2 ≠ 0)
    (hp1 : v1.prerelease = [])
    (hp2 : v2.prerelease = [])
    (hk : specBumpClass v1 v2 = some k) :
    semverDiffParsed v1 v2 = some k := by
  unfold specBumpClass at hk
  unfold semverDiffParsed
  rw [if_neg hc]
  have hpre : (!v1.prerelease.isEmpty || !v2.prerelease.isEmpty) = false := by
    rw [hp1, hp2]; rfl
  rw [hpre]
  simp only [if_false]
  by_cases hmaj : v1.major ≠ v2.major
  · rw [if_pos hmaj] at hk ⊢; exact hk
  · rw [if_neg hmaj] at hk ⊢
    by_cases hmin : v1.minor ≠ v2.minor
    · rw [if_pos hmin] at hk ⊢; exact hk
    · rw [if_neg hmin] at hk ⊢
      by_cases hpat : v1.patch ≠ v2.patch
      · rw [if_pos hpat] at hk ⊢; exact hk
      · rw [if_neg hpat] at hk; exact absurd hk (by simp)

/-- Full characterization of when the classifier answers `true`: both strings
match the loose regex with the same range marker, both stripped cores parse
under the strict semver grammar, the change is strictly increasing, neither
side carries a prerelease tag, and the highest-order differing numeric
component is among the allowed bump types. -/
theorem vvc_ok_true_iff (o n : String) (ts : List String) :
    validVersionChange o n ts = .ok true ↔
      ∃ p v1 v2,
        semverRegexExec o = some p ∧ semverRegexExec n = some p ∧
        semverParse (o.drop p.length) = some v1 ∧ semverParse (n.drop p.length) = some v2 ∧
        compareSemVer v1 v2 < 0 ∧ v1.prerelease = [] ∧ v2.prerelease = [] ∧
        ∃ k, specBumpClass v1 v2 = some k ∧ ts.contains k = true := by
  constructor
  · intro h
    unfold validVersionChange at h
    split at h
    · exact absurd h (by simp)
    next po ho =>
    split at h
    · exact absurd h (by simp)
    next pn hn =>
    split at h
    · exact absurd h (by simp)
    next hpq =>
    rw [not_ne_iff] at hpq
    subst hpq
    split at h
    · exact absurd h (by simp)
    · exact absurd h (by simp)
    next hg =>
    obtain ⟨v1, v2, hp1, hp2, hcdec⟩ := semverGteE_ok _ _ _ hg
    have hcmp : compareSemVer v1 v2 < 0 := by
      have := hcdec.symm
      simp only [decide_eq_false_iff_not] at this
      omega
    rw [semverDiffE_eq _ _ v1 v2 hp1 hp2] at h
    cases hd : semverDiffParsed v1 v2 with
    | none => rw [hd] at h; simp at h
    | some s =>
      rw [hd] at h
      simp only [Except.ok.injEq] at h
      have hs3 := bumpAllowList_mem ts s h
      obtain ⟨hpre1, hpre2, hbump⟩ :=
        semverDiffParsed_main_of v1 v2 s (by omega) hd hs3
      refine ⟨po, v1, v2, ho, hn, hp1, hp2, hcmp, hpre1, hpre2, s, hbump, ?_⟩
      rw [← bumpAllowList_same ts s hs3]
      exact h
  · rintro ⟨p, v1, v2, ho, hn, hp1, hp2, hcmp, hpre1, hpre2, k, hbump, hk⟩
    have hg : semverGteE (o.drop p.length) (n.drop p.length) = .ok false := by
      rw [semverGteE_eq _ _ v1 v2 hp1 hp2]
      have hdec : decide (0 ≤ compareSemVer v1 v2) = false := by
        simp only [decide_eq_false_iff_not]
        omega
      rw [hdec]
    have hdiff : semverDiffE (o.drop p.length) (n.drop p.length) = .ok (some k) := by
      rw [semverDiffE_eq _ _ v1 v2 hp1 hp2,
        semverDiffParsed_of_spec v1 v2 k (by omega) hpre1 hpre2 hbump]
    have hk3 : k = "major" ∨ k = "minor" ∨ k = "patch" := by
      unfold specBumpClass at hbump
      by_cases hmaj : v1.major ≠ v2.major
      · rw [if_pos hmaj] at hbump; injection hbump with hb; exact Or.inl hb.symm
      · rw [if_neg hmaj] at hbump
        by_cases hmin : v1.minor ≠ v2.minor
        · rw [if_pos hmin] at hbump; injection hbump with hb; exact Or.inr (Or.inl hb.symm)
        · rw [if_neg hmin] at hbump
          by_cases hpat : v1.patch ≠ v2.patch
          · rw [if_pos hpat] at hbump; injection hbump with hb; exact Or.inr (Or.inr hb.symm)
          · rw [if_neg hpat] at hbump; exact absurd hbump (by simp)
    unfold validVersionChange
    rw [ho, hn]
    simp only [ne_eq, not_true_eq_false, if_false, hg, hdiff, Except.ok.injEq]
    rw [bumpAllowList_same ts k hk3, hk]

/-- With no allowed bump types, the classifier never answers `true`
(fail-closed core of the engine). -/
theorem validVersionChange_empty_ne_true (o n : String) :
    validVersionChange o n [] ≠ .ok true := by
  intro h
  obtain ⟨p, v1, v2, _, _, _, _, _, _, _, k, _, hk⟩ := (vvc_ok_true_iff o n []).mp h
  simp [List.contains] at hk

/-- A value the updated diff stores under a key is never the empty object:
empty recursive differences are dropped. -/
theorem updatedFields_val_ne_empty (l : List (String × JsVal)) :
    ∀ r k v, (k, v) ∈ updatedFields l r → (isObjectB v && isEmptyObj v) = false := by
  intro r
  induction r with
  | nil => intro k v hm; simp [updatedFields] at hm
  | cons kv rest ih =>
    intro k v hm
    obtain ⟨k2, rv⟩ := kv
    unfold updatedFields at hm
    cases hl : lookupAssoc l k2 with
    | none => simp only [hl] at hm; exact ih k v hm
    | some lv =>
      simp only [hl] at hm
      by_cases hc : (isObjectB (updatedDiffV lv rv) && isEmptyObj (updatedDiffV lv rv)) = true
      · rw [if_pos hc] at hm
        exact ih k v hm
      · rw [if_neg hc] at hm
        rcases List.mem_cons.mp hm with he | hm2
        · have he2 : v = updatedDiffV lv rv := congrArg Prod.snd he
          rw [he2]
          exact Bool.not_eq_true _ ▸ hc
        · exact ih k v hm2

/-- A `true` from the outer short-circuiting `every` means every updated key
individually evaluated to `true`. -/
theorem allowedChangeE_true_mem (base head : Manifest)
    (cfg : List (String × List String)) (bl : List String) :
    ∀ L p v, allowedChangeE base head cfg bl L = .ok true → (p, v) ∈ L →
      checkProp base head cfg bl p v = .ok true := by
  intro L
  induction L with
  | nil => intro p v _ hm; simp at hm
  | cons kv rest ih =>
    intro p v h hm
    obtain ⟨p2, v2⟩ := kv
    unfold allowedChangeE at h
    cases hc : checkProp base head cfg bl p2 v2 with
    | error e => simp only [hc] at h; exact absurd h (by simp)
    | ok b =>
      cases b with
      | false => simp only [hc] at h; exact absurd h (by simp)
      | true =>
        simp only [hc] at h
        rcases List.mem_cons.mp hm with he | hm2
        · have h1 : p = p2 := congrArg Prod.fst he
          have h2 : v = v2 := congrArg Prod.snd he
          rw [h1, h2]; exact hc
        · exact ih p v h hm2

/-- A `true` from the inner short-circuiting `every` means every dependency
name individually evaluated to `true`. -/
theorem checkDeps_true_mem (base head : Manifest) (bl : List String)
    (ts : List String) (p : String) (v : JsVal) :
    ∀ deps dep, checkDeps base head bl ts p v deps = .ok true → dep ∈ deps →
      checkDependency base head bl ts p v dep = .ok true := by
  intro deps
  induction deps with
  | nil => intro dep _ hm; simp at hm
  | cons d2 rest ih =>
    intro dep h hm
    unfold checkDeps at h
    cases hc : checkDependency base head bl ts p v d2 with
    | error e => simp only [hc] at h; exact absurd h (by simp)
    | ok b =>
      cases b with
      | false => simp only [hc] at h; exact absurd h (by simp)
      | true =>
        simp only [hc] at h
        rcases List.mem_cons.mp hm with he | hm2
        · rw [he]; exact hc
        · exact ih dep h hm2

/-- The only `JsVal`s whose `typeof` is "object" are `null` and objects. -/
theorem typeofStr_object (v : JsVal) (h : typeofStr v = "object") :
    v = .null ∨ ∃ fs, v = .obj fs := by
  cases v <;> simp [typeofStr] at h ⊢

/-- A dependency entry can never evaluate to `true` when no bump types are
allowed for its dependency map. -/
theorem checkDependency_empty_ne_true (base head : Manifest) (bl : List String)
    (p : String) (v : JsVal) (dep : String) :
    checkDependency base head bl [] p v dep ≠ .ok true := by
  intro h
  unfold checkDependency at h
  cases hget : jsGetE v dep with
  | error e => simp only [hget] at h; exact absurd h (by simp)
  | ok entry =>
    simp only [hget] at h
    by_cases ht : typeofStr entry ≠ "string"
    · rw [if_pos ht] at h; simp at h
    · rw [if_neg ht] at h
      by_cases hb : bl.contains dep
      · rw [if_pos hb] at h; simp at h
      · rw [if_neg hb] at h
        cases ho : jsGetE ((lookupAssoc base p).getD .jsUndefined) dep with
        | error e => simp only [ho] at h; exact absurd h (by simp)
        | ok oldVersion =>
          simp only [ho] at h
          cases hh : jsGetE ((lookupAssoc head p).getD .jsUndefined) dep with
          | error e => simp only [hh] at h; exact absurd h (by simp)
          | ok newVersion =>
            simp only [hh] at h
            by_cases hts : typeofStr oldVersion ≠ "string" ∨ typeofStr newVersion ≠ "string"
            · rw [if_pos hts] at h; simp at h
            · rw [if_neg hts] at h
              cases oldVersion <;> cases newVersion <;>
                first
                | exact validVersionChange_empty_ne_true _ _ h
                | simp at h

/-- An updated key absent from the configuration can never evaluate to
`true`: its allowed bump types default to the empty list (or `Object.keys`
throws first). -/
theorem checkProp_absent_ne_true (base head : Manifest)
    (cfg : List (String × List String)) (bl : List String) (p : String) (v : JsVal)
    (hcfg : lookupAssoc cfg p = none) (hty : typeofStr v = "object")
    (hne : (isObjectB v && isEmptyObj v) = false) :
    checkProp base head cfg bl p v ≠ .ok true := by
  intro h
  rcases typeofStr_object v hty with rfl | ⟨fs, rfl⟩
  · unfold checkProp at h
    simp [objectKeys] at h
  · have hfs : fs ≠ [] := by
      intro hnil
      rw [hnil] at hne
      simp [isObjectB, isEmptyObj] at hne
    unfold checkProp at h
    simp only [objectKeys, hcfg, Option.getD_none] at h
    obtain ⟨⟨dep, dv⟩, hdep⟩ := List.exists_mem_of_ne_nil fs hfs
    have hmem : dep ∈ fs.map (fun kv => kv.1) := List.mem_map_of_mem _ hdep
    have := checkDeps_true_mem base head bl [] p (.obj fs) _ dep h hmem
    exact checkDependency_empty_ne_true base head bl p (.obj fs) dep this

/-- A deny-listed dependency of an object-valued updated entry always
evaluates to `false`, whatever the manifests, configuration or version
strings hold: the deny-list test short-circuits before any version is read
or classified. -/
theorem checkDependency_blocked (base head : Manifest) (bl : List String)
    (ts : List String) (p : String) (fs : List (String × JsVal)) (dep : String)
    (hb : bl.contains dep = true) :
    checkDependency base head bl ts p (.obj fs) dep = .ok false := by
  unfold checkDependency
  simp only [jsGetE]
  by_cases ht : typeofStr ((lookupAssoc fs dep).getD .jsUndefined) ≠ "string"
  · rw [if_pos ht]
  · rw [if_neg ht, if_pos hb]

/-- With no added and no deleted keys and an accepted property shape, the
policy outcome is decided by the dependency walk. -/
theorem evalPolicy_eq_match (base head : Manifest)
    (cfg : List (String × List String)) (bl : List String)
    (h1 : addedFields base head = []) (h2 : deletedFields head base = [])
    (h3 : allowedPropsB (updatedFields base head) = true) :
    evalPolicy base head cfg bl =
      match allowedChangeE base head cfg bl (updatedFields base head) with
      | .error e => .crashed e
      | .ok false => .denied .VersionChangeNotAllowed
      | .ok true => .allowed := by
  unfold evalPolicy
  simp only [h1, h2, h3, List.isEmpty_nil, Bool.not_true, Bool.or_self, Bool.not_false]
  rfl

/-- The property-shape check fails exactly when some updated entry has an
unrecognized key or a value whose JS `typeof` is not "object". -/
theorem allowedPropsB_false_iff (upd : List (String × JsVal)) :
    allowedPropsB upd = false ↔
      ∃ kv ∈ upd, ¬((kv.1 = "dependencies" ∨ kv.1 = "devDependencies") ∧
        typeofStr kv.2 = "object") := by
  simp [allowedPropsB, List.all_eq_false]

/-- The scope validator fails exactly when some changed file has a name
outside the fixed allow-list or a status other than "modified". -/
theorem onlyPackageJsonChanged_false_iff (files : List ChangedFile) :
    onlyPackageJsonChanged files = false ↔
      ∃ f ∈ files, ¬(f.filename ∈ allowedFileNames ∧ f.status = "modified") := by
  simp [onlyPackageJsonChanged, List.all_eq_false]

/-- Claim C1, counterexample: the pair "1.0.0" → "2.0.0-alpha" matches the
claim's grammar with equal (empty) prefixes, is strictly increasing in semver
order, and its highest-order differing numeric component is "major", a member
of the allowed set; yet the classifier returns `false` (the underlying semver
diff reports "premajor", which the allow list never contains). -/
theorem c1_counterexample :
    semverRegexExec "1.0.0" = some "" ∧
    semverRegexExec "2.0.0-alpha" = some "" ∧
    semverParse "1.0.0" = some ⟨1, 0, 0, []⟩ ∧
    semverParse "2.0.0-alpha" = some ⟨2, 0, 0, [.str "alpha"]⟩ ∧
    compareSemVer ⟨1, 0, 0, []⟩ ⟨2, 0, 0, [.str "alpha"]⟩ < 0 ∧
    specBumpClass ⟨1, 0, 0, []⟩ ⟨2, 0, 0, [.str "alpha"]⟩ = some "major" ∧
    (["major"] : List String).contains "major" = true ∧
    validVersionChange "1.0.0" "2.0.0-alpha" ["major"] = .ok false := by
  refine ⟨rfl, rfl, by decide, by decide, by decide, by decide, by decide, rfl⟩

/-- Claim C1, amended: the classifier returns `true` exactly when both
specifiers match the loose grammar with equal prefixes, both stripped cores
parse under the strict semver grammar, the new version is strictly greater,
NEITHER version carries a prerelease tag, and the highest-order differing
numeric component is in the allowed set; every other pair yields `false`,
except that a core passing the loose grammar but failing the strict one makes
the classifier throw instead. -/
theorem c1_classifier_characterization (oldVersion newVersion : String)
    (allowedBumpTypes : List String) :
    validVersionChange oldVersion newVersion allowedBumpTypes = .ok true ↔
      ∃ p v1 v2,
        semverRegexExec oldVersion = some p ∧ semverRegexExec newVersion = some p ∧
        semverParse (oldVersion.drop p.length) = some v1 ∧
        semverParse (newVersion.drop p.length) = some v2 ∧
        compareSemVer v1 v2 < 0 ∧ v1.prerelease = [] ∧ v2.prerelease = [] ∧
        ∃ k, specBumpClass v1 v2 = some k ∧ allowedBumpTypes.contains k = true :=
  vvc_ok_true_iff oldVersion newVersion allowedBumpTypes

/-- Claim C9: for base `devDependencies {a: "0.0.1"}`, head
`devDependencies {a: "0.0.2"}` and configuration allowing
devDependencies:patch, the policy evaluation falls through every check (the
auto-merge trigger is reached). -/
theorem c9_patch_scenario_allowed :
    evalPolicy [("devDependencies", .obj [("a", .str "0.0.1")])]
        [("devDependencies", .obj [("a", .str "0.0.2")])]
        [("devDependencies", ["patch"])] [] = .allowed ∧
    runModel [⟨"package.json", "modified"⟩, ⟨"package-lock.json", "modified"⟩]
        [("devDependencies", .obj [("a", .str "0.0.1")])]
        [("devDependencies", .obj [("a", .str "0.0.2")])]
        [("devDependencies", ["patch"])] [] = .allowed := by
  exact ⟨rfl, rfl⟩

/-- Claim C10: when the head manifest maps `dependencies` to `null`, the diff
marks `dependencies` as updated with value `null`, the property-shape check
accepts it (`typeof null` is "object"), and the run then crashes with a
TypeError from `Object.keys(null)` instead of returning any denial — for
every configuration and deny list. -/
theorem c10_null_value_crash (cfg : List (String × List String)) (bl : List String) :
    updatedFields nullScenarioBase nullScenarioHead = [("dependencies", .null)] ∧
    allowedPropsB (updatedFields nullScenarioBase nullScenarioHead) = true ∧
    evalPolicy nullScenarioBase nullScenarioHead cfg bl =
      .crashed "TypeError: Cannot convert undefined or null to object" := by
  exact ⟨rfl, rfl, rfl⟩

/-- Claim C3: from the commit stage on, the run returns `FileNotAllowed` —
for every pair of manifests, i.e. before and independent of any manifest
content — exactly when some changed file has a name outside
package.json/package-lock.json/yarn.lock or a status other than "modified". -/
theorem c3_scope_validator (files : List ChangedFile)
    (cfg : List (String × List String)) (bl : List String) :
    (∃ f ∈ files, ¬(f.filename ∈ allowedFileNames ∧ f.status = "modified")) ↔
      ∀ base head : Manifest, runModel files base head cfg bl = .denied .FileNotAllowed := by
  constructor
  · intro hbad base head
    have hfalse : onlyPackageJsonChanged files = false :=
      (onlyPackageJsonChanged_false_iff files).mpr hbad
    unfold runModel
    rw [hfalse]
    rfl
  · intro hall
    by_contra hno
    have htrue : onlyPackageJsonChanged files = true := by
      cases h : onlyPackageJsonChanged files with
      | true => rfl
      | false => exact absurd ((onlyPackageJsonChanged_false_iff files).mp h) hno
    have := hall [] []
    unfold runModel at this
    rw [htrue] at this
    rw [show evalPolicy ([] : Manifest) [] cfg bl = .allowed from rfl] at this
    simp at this

/-- Claim C4: whenever the structural diff reports any added or any deleted
top-level key, the evaluation stops at `Denied(UnexpectedChanges)`, for every
configuration and deny list; no dependency transition is reached. -/
theorem c4_unexpected_changes (base head : Manifest)
    (cfg : List (String × List String)) (bl : List String)
    (h : addedFields base head ≠ [] ∨ deletedFields head base ≠ []) :
    evalPolicy base head cfg bl = .denied .UnexpectedChanges := by
  unfold evalPolicy
  have hc : (!(addedFields base head).isEmpty || !(deletedFields head base).isEmpty) = true := by
    rcases h with h | h <;> simp [List.isEmpty_iff, h]
  rw [hc]
  rfl

/-- Witness for C4 at a concrete input: deleting the only key of the base
manifest is denied as `UnexpectedChanges`. -/
theorem c4_unexpected_changes_witness :
    evalPolicy [("dependencies", .obj [("a", .str "1.0.0")])] [] [] [] =
      .denied .UnexpectedChanges :=
  c4_unexpected_changes _ _ _ _ (Or.inr (by simp [deletedFields, lookupAssoc]))

/-- Claim C5, counterexample: with head mapping `dependencies` to `null`, the
updated value `null` is not a mapping, yet the evaluation does not return
`Denied(UnexpectedPropertyChange)` — the `typeof x === 'object'` test accepts
`null` and the run crashes later instead. -/
theorem c5_counterexample :
    updatedFields nullScenarioBase nullScenarioHead = [("dependencies", .null)] ∧
    isObjectB .null = false ∧
    allowedPropsB [("dependencies", .null)] = true ∧
    evalPolicy nullScenarioBase nullScenarioHead [] [] ≠
      .denied .UnexpectedPropertyChange := by
  refine ⟨rfl, rfl, rfl, ?_⟩
  rw [show evalPolicy nullScenarioBase nullScenarioHead [] [] =
    .crashed "TypeError: Cannot convert undefined or null to object" from rfl]
  simp

/-- Claim C5, amended: the evaluation returns
`Denied(UnexpectedPropertyChange)` exactly when no top-level key was added or
deleted and some updated key is not one of the two dependency-map keys or has
an updated value whose JS `typeof` is not "object" — `null` values pass the
check (`typeof null` is "object") and are not denied here. -/
theorem c5_property_check (base head : Manifest)
    (cfg : List (String × List String)) (bl : List String) :
    evalPolicy base head cfg bl = .denied .UnexpectedPropertyChange ↔
      (addedFields base head = [] ∧ deletedFields head base = [] ∧
        ∃ kv ∈ updatedFields base head,
          ¬((kv.1 = "dependencies" ∨ kv.1 = "devDependencies") ∧
            typeofStr kv.2 = "object")) := by
  constructor
  · intro h
    unfold evalPolicy at h
    by_cases hAD : (!(addedFields base head).isEmpty || !(deletedFields head base).isEmpty) = true
    · rw [hAD] at h
      simp at h
    · rw [Bool.not_eq_true] at hAD
      rw [hAD] at h
      simp only [Bool.false_eq_true, if_false] at h
      have hadded : addedFields base head = [] := by
        rcases Bool.or_eq_false_iff.mp hAD with ⟨ha, _⟩
        simpa [List.isEmpty_iff] using ha
      have hdeleted : deletedFields head base = [] := by
        rcases Bool.or_eq_false_iff.mp hAD with ⟨_, hb⟩
        simpa [List.isEmpty_iff] using hb
      by_cases hP : allowedPropsB (updatedFields base head) = true
      · rw [hP] at h
        simp only [Bool.not_true, Bool.false_eq_true, if_false] at h
        exfalso
        cases hA : allowedChangeE base head cfg bl (updatedFields base head) with
        | error e => rw [hA] at h; simp at h
        | ok b => cases b <;> rw [hA] at h <;> simp at h
      · refine ⟨hadded, hdeleted, ?_⟩
        exact (allowedPropsB_false_iff _).mp (Bool.not_eq_true _ ▸ hP)
  · rintro ⟨h1, h2, hbad⟩
    have hP : allowedPropsB (updatedFields base head) = false :=
      (allowedPropsB_false_iff _).mpr hbad
    unfold evalPolicy
    simp only [h1, h2, hP, List.isEmpty_nil, Bool.not_true, Bool.or_self, Bool.not_false,
      Bool.false_eq_true, if_false, if_true]

/-- Claim C2, counterexample: base maps `dependencies` to `null`, head to
`{a: "1.0.0"}`; `dependencies` appears in the updated diff and is absent from
the (empty) configuration, yet the evaluation does not return
`Denied(VersionChangeNotAllowed)` — it crashes with a TypeError reading the
old version off `null` before the empty allow list is ever consulted. -/
theorem c2_counterexample :
    updatedFields [("dependencies", .null)] [("dependencies", .obj [("a", .str "1.0.0")])] =
      [("dependencies", .obj [("a", .str "1.0.0")])] ∧
    lookupAssoc ([] : List (String × List String)) "dependencies" = none ∧
    evalPolicy [("dependencies", .null)] [("dependencies", .obj [("a", .str "1.0.0")])] [] [] =
      .crashed "TypeError: Cannot read properties of null" ∧
    evalPolicy [("dependencies", .null)] [("dependencies", .obj [("a", .str "1.0.0")])] [] [] ≠
      .denied .VersionChangeNotAllowed := by
  refine ⟨rfl, rfl, rfl, ?_⟩
  rw [show evalPolicy [("dependencies", .null)]
      [("dependencies", .obj [("a", .str "1.0.0")])] [] [] =
    .crashed "TypeError: Cannot read properties of null" from rfl]
  simp

/-- Claim C2, amended: when the shape checks pass and some updated
dependency-map key is absent from the allowed-update-types configuration, the
evaluation never resolves to allowance: it returns
`Denied(VersionChangeNotAllowed)` unless a malformed manifest value makes the
run crash with a TypeError first. -/
theorem c2_fail_closed_default (base head : Manifest)
    (cfg : List (String × List String)) (bl : List String)
    (h1 : addedFields base head = []) (h2 : deletedFields head base = [])
    (h3 : allowedPropsB (updatedFields base head) = true)
    (habsent : ∃ kv ∈ updatedFields base head, lookupAssoc cfg kv.1 = none) :
    evalPolicy base head cfg bl = .denied .VersionChangeNotAllowed ∨
      ∃ m, evalPolicy base head cfg bl = .crashed m := by
  rw [evalPolicy_eq_match base head cfg bl h1 h2 h3]
  cases hA : allowedChangeE base head cfg bl (updatedFields base head) with
  | error e => exact Or.inr ⟨e, rfl⟩
  | ok b =>
    cases b with
    | false => exact Or.inl rfl
    | true =>
      exfalso
      obtain ⟨⟨p, v⟩, hmem, hnone⟩ := habsent
      have hprop := allowedChangeE_true_mem base head cfg bl _ p v hA hmem
      have hty : typeofStr v = "object" := by
        have := List.all_eq_true.mp h3 (p, v) hmem
        simp at this
        exact this.2
      have hne := updatedFields_val_ne_empty base head p v hmem
      exact checkProp_absent_ne_true base head cfg bl p v hnone hty hne hprop

/-- Witness for C2 at a concrete input: a dependency bump under a key with no
configuration entry is denied as `VersionChangeNotAllowed`. -/
theorem c2_fail_closed_default_witness :
    evalPolicy [("dependencies", .obj [("a", .str "1.0.0")])]
        [("dependencies", .obj [("a", .str "1.0.1")])] [] [] =
      .denied .VersionChangeNotAllowed ∨
    ∃ m, evalPolicy [("dependencies", .obj [("a", .str "1.0.0")])]
        [("dependencies", .obj [("a", .str "1.0.1")])] [] [] = .crashed m :=
  c2_fail_closed_default _ _ _ _ rfl rfl rfl
    ⟨("dependencies", .obj [("a", .str "1.0.1")]), by
      rw [show updatedFields [("dependencies", .obj [("a", .str "1.0.0")])]
          [("dependencies", .obj [("a", .str "1.0.1")])] =
        [("dependencies", JsVal.obj [("a", JsVal.str "1.0.1")])] from rfl]
      exact List.mem_singleton_self _, rfl⟩

/-- Claim C6, counterexample: the deny-listed package "blocked" is bumped
1.0.0 → 1.0.1 under `devDependencies`, but because the same diff carries a
`null`-valued `dependencies` entry that is iterated first, the evaluation
crashes with a TypeError instead of returning
`Denied(VersionChangeNotAllowed)`. -/
theorem c6_counterexample :
    (["blocked"] : List String).contains "blocked" = true ∧
    updatedFields
        [("dependencies", .obj [("x", .str "1.0.0")]),
         ("devDependencies", .obj [("blocked", .str "1.0.0")])]
        [("dependencies", .null), ("devDependencies", .obj [("blocked", .str "1.0.1")])] =
      [("dependencies", .null), ("devDependencies", .obj [("blocked", .str "1.0.1")])] ∧
    evalPolicy
        [("dependencies", .obj [("x", .str "1.0.0")]),
         ("devDependencies", .obj [("blocked", .str "1.0.0")])]
        [("dependencies", .null), ("devDependencies", .obj [("blocked", .str "1.0.1")])]
        [("devDependencies", ["patch"])] ["blocked"] =
      .crashed "TypeError: Cannot convert undefined or null to object" ∧
    evalPolicy
        [("dependencies", .obj [("x", .str "1.0.0")]),
         ("devDependencies", .obj [("blocked", .str "1.0.0")])]
        [("dependencies", .null), ("devDependencies", .obj [("blocked", .str "1.0.1")])]
        [("devDependencies", ["patch"])] ["blocked"] ≠
      .denied .VersionChangeNotAllowed := by
  refine ⟨rfl, rfl, rfl, ?_⟩
  rw [show evalPolicy
      [("dependencies", .obj [("x", .str "1.0.0")]),
       ("devDependencies", .obj [("blocked", .str "1.0.0")])]
      [("dependencies", .null), ("devDependencies", .obj [("blocked", .str "1.0.1")])]
      [("devDependencies", ["patch"])] ["blocked"] =
    .crashed "TypeError: Cannot convert undefined or null to object" from rfl]
  simp

/-- Claim C6, amended: a change touching a deny-listed package never resolves
to allowance — the evaluation returns `Denied(VersionChangeNotAllowed)`
unless a malformed entry iterated earlier crashes the run with a TypeError
first — and the deny-list test short-circuits the deny-listed entry itself to
`false` for every configured bump-type set, before any version is read or
classified. -/
theorem c6_deny_list (base head : Manifest)
    (cfg : List (String × List String)) (bl : List String)
    (p : String) (fs : List (String × JsVal)) (dep : String) (val : JsVal)
    (h1 : addedFields base head = []) (h2 : deletedFields head base = [])
    (h3 : allowedPropsB (updatedFields base head) = true)
    (hmem : (p, .obj fs) ∈ updatedFields base head)
    (hdep : (dep, val) ∈ fs)
    (hb : bl.contains dep = true) :
    (evalPolicy base head cfg bl = .denied .VersionChangeNotAllowed ∨
      ∃ m, evalPolicy base head cfg bl = .crashed m) ∧
    ∀ ts : List String, checkDependency base head bl ts p (.obj fs) dep = .ok false := by
  refine ⟨?_, fun ts => checkDependency_blocked base head bl ts p fs dep hb⟩
  rw [evalPolicy_eq_match base head cfg bl h1 h2 h3]
  cases hA : allowedChangeE base head cfg bl (updatedFields base head) with
  | error e => exact Or.inr ⟨e, rfl⟩
  | ok b =>
    cases b with
    | false => exact Or.inl rfl
    | true =>
      exfalso
      have hprop := allowedChangeE_true_mem base head cfg bl _ p (.obj fs) hA hmem
      unfold checkProp at hprop
      simp only [objectKeys] at hprop
      have hkey : dep ∈ fs.map (fun kv => kv.1) := List.mem_map_of_mem _ hdep
      have htrue := checkDeps_true_mem base head bl _ p (.obj fs) _ dep hprop hkey
      rw [checkDependency_blocked base head bl _ p fs dep hb] at htrue
      exact absurd htrue (by simp)

/-- Witness for C6 at the specification's scenario: deny-listed "left-pad"
bumped 1.0.0 → 1.0.1 with dependencies:patch allowed. -/
theorem c6_deny_list_witness :
    (evalPolicy [("dependencies", .obj [("left-pad", .str "1.0.0")])]
        [("dependencies", .obj [("left-pad", .str "1.0.1")])]
        [("dependencies", ["patch"])] ["left-pad"] = .denied .VersionChangeNotAllowed ∨
      ∃ m, evalPolicy [("dependencies", .obj [("left-pad", .str "1.0.0")])]
        [("dependencies", .obj [("left-pad", .str "1.0.1")])]
        [("dependencies", ["patch"])] ["left-pad"] = .crashed m) ∧
    ∀ ts : List String,
      checkDependency [("dependencies", .obj [("left-pad", .str "1.0.0")])]
        [("dependencies", .obj [("left-pad", .str "1.0.1")])] ["left-pad"] ts
        "dependencies" (.obj [("left-pad", .str "1.0.1")]) "left-pad" = .ok false :=
  c6_deny_list _ _ _ _ _ _ _ _ rfl rfl rfl
    (by
      rw [show updatedFields [("dependencies", .obj [("left-pad", .str "1.0.0")])]
          [("dependencies", .obj [("left-pad", .str "1.0.1")])] =
        [("dependencies", JsVal.obj [("left-pad", JsVal.str "1.0.1")])] from rfl]
      exact List.mem_singleton_self _)
    (List.mem_singleton_self _) rfl

/-- Claim C7, counterexample: the error taxonomy is NOT mapped one-to-one
onto result values — no member of the `Result` enum of src/result.ts is named
PRHeadChanged, TimedOut or MergeTriggerFailed; the polling-loop timeout and
an auto-merge failure surface as thrown errors (a shared generic failure
channel distinguished only by message), and the loop's 409 branch returns an
enum member that does not exist. -/
theorem c7_counterexample :
    (∀ r : Result, resultName r ≠ "PRHeadChanged" ∧ resultName r ≠ "TimedOut" ∧
      resultName r ≠ "MergeTriggerFailed") ∧
    runOutcomeOfLoop .timedOutThrown = .threw "Timed out" ∧
    enableAutoMergeModel none = .threw "Failed to enable auto-merge" ∧
    runOutcomeOfLoop .prHeadChanged = .returnedUndefinedMember "PRHeadChanged" := by
  refine ⟨fun r => ?_, rfl, rfl, rfl⟩
  cases r <;> exact ⟨by decide, by decide, by decide⟩

/-- Claim C7, amended: the denial reasons that are `Result` members
(`UnknownEvent` through `PRNotOpen`) do map one-to-one onto distinct numeric
values, and `PRNotOpen` is returned as such by the polling loop; but the
timeout and a merge-trigger failure are thrown errors rather than result
values (told apart only by their messages), and `PRHeadChanged` is referenced
by run.ts without being a member of the enum. -/
theorem c7_result_mapping :
    (allResults.map resultCode).Nodup ∧
    (∀ r : Result, r ∈ allResults) ∧
    runOutcomeOfLoop .prNotOpen = .returned .PRNotOpen ∧
    runOutcomeOfLoop .merged = .returned .Success ∧
    runOutcomeOfLoop .timedOutThrown = .threw "Timed out" ∧
    enableAutoMergeModel none = .threw "Failed to enable auto-merge" ∧
    ("Timed out" : String) ≠ "Failed to enable auto-merge" ∧
    runOutcomeOfLoop .prHeadChanged = .returnedUndefinedMember "PRHeadChanged" := by
  refine ⟨by decide, fun r => ?_, rfl, rfl, rfl, rfl, by decide, rfl⟩
  cases r <;> simp [allResults]

/-- Claim C8: the delay slept at the end of loop iteration `i` (the sleep
before retry `i`, counting retries from 0) is the i-th entry of the schedule
1,1,1,2,3,4,5,10,20,40,60 seconds for `i ≤ 10` and exactly 60 seconds for
every later `i`; and once the iteration's timeout check sees more than the
fixed six-hour ceiling elapsed since the recorded start, the loop ends in the
thrown `Timed out` outcome, which is fatal for the run. -/
theorem c8_retry_schedule_and_timeout :
    (∀ i : Nat, i ≤ 10 →
      delayForAttempt i = (([1, 1, 1, 2, 3, 4, 5, 10, 20, 40, 60] : List Nat).getD i 0) * 1000) ∧
    (∀ i : Nat, 10 < i → delayForAttempt i = 60000) ∧
    timeoutMs = 6 * 60 * 60 * 1000 ∧
    (∀ (startTime : Nat) (t : Tick) (rest : List Tick),
      tickStep t = .again → startTime + timeoutMs < t.now →
      mergeLoop startTime (t :: rest) = some .timedOutThrown) ∧
    runOutcomeOfLoop .timedOutThrown = .threw "Timed out" := by
  refine ⟨?_, ?_, rfl, ?_, rfl⟩
  · intro i hi
    interval_cases i <;> rfl
  · intro i hi
    unfold delayForAttempt
    rw [show retryDelays.length - 1 = 10 from rfl, Nat.min_eq_left (by omega)]
    rfl
  · intro startTime t rest hstep htime
    unfold mergeLoop
    rw [hstep, if_pos (by omega)]
